import Mathlib

/-! Verification development for the chatery_whatsapp session-orchestration and
credential-persistence layer.

Shallow embedding of:
- the session registry `WhatsAppManager` (src/unnamed/part_000):
  `initExistingSessions`, `createSession`, `getSession`, `getAllSessions`,
  `deleteSession`;
- the credential adapter `useSupabaseAuthState` and `initAuthCreds`
  (src/src/services/supabase/SupabaseAuthState.js): `readData`, `writeData`,
  `removeData`, `keys.get`, `keys.set`, the bootstrap at construction;
- the media adapter `SupabaseStorage` (src/unnamed/part_001): `_getStoragePath`,
  `uploadMedia`;
- the client singleton `getSupabaseClient`
  (src/src/services/supabase/SupabaseClient.js).

The class `WhatsAppSession` (the per-session handle) is not part of the sources;
its operations used by the registry (`connect`, `logout`, `updateConfig`,
`getInfo`, construction) are modelled from the specification, sections 4.4 and 7,
and are marked as such in their doc comments.

Asynchronous store calls are embedded as pure state transformers; store failures
are injected through explicit error sets (for the database) and flags (for blob
storage), mirroring the try/catch structure of the source. -/

namespace Chatery

/-! ## JSON-like values

Rows of the `wa_auth_keys` table hold one jsonb value (`key_data`); session
metadata and webhook configs are arbitrary structured values. `JSVal` models the
JavaScript/JSON value domain. Objects and arrays are encoded as cons chains so
that equality is decidable. JavaScript `undefined` is modelled as `null`
(both are falsy and neither survives JSON serialization as a distinct value). -/

inductive JSVal where
  | null
  | bool (b : Bool)
  | num (n : Int)
  | str (s : String)
  | bytes (bs : List Nat)
  | arrNil
  | arrCons (head tail : JSVal)
  | objNil
  | objCons (key : String) (value tail : JSVal)
deriving Repr, DecidableEq

/-- Build an object value from a list of fields. -/
def JSVal.objOf : List (String × JSVal) → JSVal
  | [] => .objNil
  | (k, v) :: rest => .objCons k v (objOf rest)

/-- JavaScript truthiness: null/undefined, false, 0 and the empty string are
falsy; every object (including Buffers, arrays and empty objects) is truthy. -/
def jsTruthy : JSVal → Bool
  | .null => false
  | .bool b => b
  | .num n => n != 0
  | .str s => s != ""
  | .bytes _ => true
  | .arrNil => true
  | .arrCons _ _ => true
  | .objNil => true
  | .objCons _ _ _ => true

/-- JavaScript logical or, as used in `readData(..) || initAuthCreds()`:
the left operand is kept when truthy, otherwise the right operand is used.
An absent read result (JS null) is falsy. -/
def jsOr (a : Option JSVal) (b : JSVal) : JSVal :=
  match a with
  | some v => if jsTruthy v then v else b
  | none => b

/-! ## Credential store state

The `wa_auth_keys` table is keyed by (session_id, key_id). The adapter only ever
touches rows of its own session id, so the state is modelled per session as an
association list from key_id to the stored jsonb value, with at most one row per
key for states the system produces. Store-connectivity failures are injected as
sets of key ids whose read / write / delete request errors. -/

abbrev AuthStore := List (String × JSVal)

/-- Point lookup of a key id, first matching row wins (the table has at most one
row per (session_id, key_id) by its unique constraint). -/
def lookupKey : AuthStore → String → Option JSVal
  | [], _ => none
  | row :: rest, keyId => if row.1 == keyId then some row.2 else lookupKey rest keyId

/-- Database upsert with onConflict (session_id, key_id): replaces the row when
present, inserts it otherwise. -/
def upsertKey : AuthStore → String → JSVal → AuthStore
  | [], keyId, v => [(keyId, v)]
  | row :: rest, keyId, v =>
      if row.1 == keyId then (keyId, v) :: rest
      else row :: upsertKey rest keyId v

/-- Database delete of every row with the given key id for this session. -/
def removeKey : AuthStore → String → AuthStore
  | [], _ => []
  | row :: rest, keyId =>
      if row.1 == keyId then removeKey rest keyId else row :: removeKey rest keyId

/-- SupabaseAuthState.js readData: selects key_data for (session_id, key_id);
any store error, as well as a missing row, yields null. -/
def readData (store : AuthStore) (readErr : List String) (keyId : String) : Option JSVal :=
  if keyId ∈ readErr then none else lookupKey store keyId

/-- SupabaseAuthState.js writeData: upserts key_data for (session_id, key_id);
a store error is logged and swallowed, leaving the store unchanged. -/
def writeData (store : AuthStore) (writeErr : List String) (keyId : String)
    (keyData : JSVal) : AuthStore :=
  if keyId ∈ writeErr then store else upsertKey store keyId keyData

/-- SupabaseAuthState.js removeData: deletes the row for (session_id, key_id);
a store error fails silently, leaving the store unchanged. -/
def removeData (store : AuthStore) (removeErr : List String) (keyId : String) : AuthStore :=
  if keyId ∈ removeErr then store else removeKey store keyId

/-- The composite key built by keys.get and keys.set: category dash id. -/
def keyIdOf (category id : String) : String := category ++ "-" ++ id

/-- Field names declared by the protobuf message AppStateSyncKeyData
(keyData, fingerprint, timestamp). -/
def appStateSyncKeyFields : List String := ["keyData", "fingerprint", "timestamp"]

/-- Modelled from the external protocol engine interface (spec section 4.2):
proto.Message.AppStateSyncKeyData.fromObject is a typed reconstruction of the
raw blob, not the verbatim value. Following protobufjs fromObject semantics, it
keeps exactly the declared message fields of the input object, drops unknown
fields, and yields an empty message for non-object input. -/
def fromObject : JSVal → JSVal
  | .objNil => .objNil
  | .objCons k v rest =>
      if k ∈ appStateSyncKeyFields then .objCons k v (fromObject rest) else fromObject rest
  | _ => .objNil

/-- SupabaseAuthState.js keys.get(type, ids): resolves every requested id to the
value stored under the composite key, assigning null (here none) on a missing
row or a per-id store error; values of the app-state-sync-key category are, when
truthy, passed through the typed reconstruction. The Promise.all over the ids is
embedded as a map, the lookups being independent. -/
def keysGet (store : AuthStore) (readErr : List String) (type : String)
    (ids : List String) : List (String × Option JSVal) :=
  ids.map (fun id =>
    let value := readData store readErr (keyIdOf type id)
    let value :=
      if type == "app-state-sync-key" then
        match value with
        | some v => if jsTruthy v then some (fromObject v) else some v
        | none => none
      else value
    (id, value))

/-- The categorized updates passed to keys.set: category to id to value. -/
abbrev CategorizedData := List (String × List (String × JSVal))

/-- The write / delete tasks keys.set builds: one per (category, id, value)
triple, in iteration order, keyed by the composite key. -/
def setOps (data : CategorizedData) : List (String × JSVal) :=
  data.flatMap (fun cat => cat.2.map (fun entry => (keyIdOf cat.1 entry.1, entry.2)))

/-- One task of keys.set: a truthy value is written, a falsy one deletes the
key, matching the conditional between writeData and removeData. -/
def applySetOp (writeErr removeErr : List String) (store : AuthStore)
    (op : String × JSVal) : AuthStore :=
  if jsTruthy op.2 then writeData store writeErr op.1 op.2
  else removeData store removeErr op.1

/-- SupabaseAuthState.js keys.set(data): issues one task per triple and awaits
them all. The concurrent Promise.all is embedded as applying every issued task;
the theorems below assume the tasks of one call touch pairwise distinct keys,
under which the application order is irrelevant. -/
def keysSet (store : AuthStore) (writeErr removeErr : List String)
    (data : CategorizedData) : AuthStore :=
  (setOps data).foldl (applySetOp writeErr removeErr) store

/-! ## Credential bootstrap (initAuthCreds) -/

/-- The external crypto primitives used by initAuthCreds: Curve.publicKey,
Curve.sign and base64 rendering of a byte string. They are opaque parameters;
no claim depends on their behaviour. -/
structure CryptoEnv where
  curvePublicKey : List Nat → List Nat
  curveSign : List Nat → List Nat → List Nat
  base64 : List Nat → String

/-- The randomness drawn by initAuthCreds, one field per randomBytes call, in
source order: the three 32-byte key seeds, the signed prekey seed and its
16-bit key id word, the 16-bit registration id word, and the 32-byte adv
secret. -/
structure Rng where
  noiseSeed : List Nat
  pairingSeed : List Nat
  identitySeed : List Nat
  preKeyIdWord : Nat
  preKeySeed : List Nat
  regIdWord : Nat
  advSecret : List Nat

/-- The generateKeyPair helper of initAuthCreds: a 32-byte private seed and the
curve public key derived from it. -/
def generateKeyPairVal (c : CryptoEnv) (seed : List Nat) : JSVal :=
  .objOf [("private", .bytes seed), ("public", .bytes (c.curvePublicKey seed))]

/-- SupabaseAuthState.js initAuthCreds: synthesizes a fresh identity: noise and
pairing-ephemeral key pairs, a signed identity key pair, one signed prekey with
a random 16-bit key id, a registration id masked to 14 bits, a base64 32-byte
secret, and default counters and flags. JS undefined fields are modelled as
null. -/
def initAuthCreds (c : CryptoEnv) (r : Rng) : JSVal :=
  let identityPriv := r.identitySeed
  let preKeyPub := c.curvePublicKey r.preKeySeed
  .objOf
    [ ("noiseKey", generateKeyPairVal c r.noiseSeed)
    , ("pairingEphemeralKeyPair", generateKeyPairVal c r.pairingSeed)
    , ("signedIdentityKey", generateKeyPairVal c identityPriv)
    , ("signedPreKey", .objOf
        [ ("keyId", .num ((r.preKeyIdWord &&& 0xFFFF : Nat) : Int))
        , ("keyPair", generateKeyPairVal c r.preKeySeed)
        , ("signature", .bytes (c.curveSign identityPriv preKeyPub)) ])
    , ("registrationId", .num ((r.regIdWord &&& 16383 : Nat) : Int))
    , ("advSecretKey", .str (c.base64 r.advSecret))
    , ("processedHistoryMessages", .arrNil)
    , ("nextPreKeyId", .num 1)
    , ("firstUnuploadedPreKeyId", .num 1)
    , ("accountSyncCounter", .num 0)
    , ("accountSettings", .objOf [("unarchiveChats", .bool false)])
    , ("registered", .bool false)
    , ("pairingCode", .null)
    , ("lastPropHash", .null)
    , ("routingInfo", .null) ]

/-- The observable outcome of constructing the adapter: the creds the state
carries and the store after construction. -/
structure AuthState where
  creds : JSVal
  store : AuthStore
deriving Repr

/-- SupabaseAuthState.js useSupabaseAuthState construction: loads existing
credentials with readData, falling back to initAuthCreds via JS logical or when
the read result is falsy. Construction only reads; no write is issued, so the
store is returned unchanged. -/
def useSupabaseAuthState (store : AuthStore) (readErr : List String)
    (c : CryptoEnv) (r : Rng) : AuthState :=
  { creds := jsOr (readData store readErr "creds") (initAuthCreds c r)
  , store := store }

/-! ## The session registry (WhatsAppManager)

The class WhatsAppSession is not among the sources; the operations the registry
invokes on a handle are modelled from the specification (sections 4.4 and 7).
Handle construction, config persistence, connect and logout calls are recorded
as events so that theorems can speak about which effects an operation issued. -/

/-- Connection states of a session handle (spec section 4.4). -/
inductive ConnStatus where
  | disconnected
  | connecting
  | connected
  | loggedOut
deriving Repr, DecidableEq

/-- The options argument of createSession: optional metadata and webhooks. -/
structure SessionOptions where
  metadata : Option JSVal := none
  webhooks : Option JSVal := none
deriving Repr, DecidableEq

/-- Truthiness of an optional JS value: an absent argument is undefined, hence
falsy. -/
def optTruthy : Option JSVal → Bool
  | some v => jsTruthy v
  | none => false

/-- Modelled from the spec (section 3): the per-session handle state the
registry observes: id, connection status, metadata and webhook config. -/
structure WhatsAppSession where
  sessionId : String
  connectionStatus : ConnStatus
  metadata : Option JSVal
  webhooks : Option JSVal
deriving Repr, DecidableEq

/-- Modelled from the spec (section 4.4): a freshly constructed handle starts
disconnected and carries the supplied options. -/
def WhatsAppSession.make (sessionId : String) (options : SessionOptions) : WhatsAppSession :=
  { sessionId := sessionId
  , connectionStatus := .disconnected
  , metadata := options.metadata
  , webhooks := options.webhooks }

/-- Modelled from the spec (sections 4.4 and 7): connect is a no-op when the
handle is already connecting or connected; otherwise it starts one underlying
connection attempt whose externally determined outcome is `ok`. Failures are
logged and surface as a status transition, never as a thrown error. -/
def WhatsAppSession.connect (s : WhatsAppSession) (ok : Bool) : WhatsAppSession :=
  if s.connectionStatus == .connecting || s.connectionStatus == .connected then s
  else { s with connectionStatus := if ok then .connecting else .disconnected }

/-- Modelled from the spec (sections 4.4 and 7): logout tears down the live
connection and triggers cascading deletion of credentials and media;
`teardownFails` injects a partial cleanup failure, which is logged and
swallowed, the handle ending logged out regardless. -/
def WhatsAppSession.logout (s : WhatsAppSession) (teardownFails : Bool) : WhatsAppSession :=
  { s with connectionStatus := .loggedOut }

/-- Modelled from the spec (section 4.4): updateConfig merges the supplied
metadata and webhook fields into the record and does not change connection
state. -/
def WhatsAppSession.updateConfig (s : WhatsAppSession) (options : SessionOptions) : WhatsAppSession :=
  { s with
    metadata := if optTruthy options.metadata then options.metadata else s.metadata
    webhooks := if optTruthy options.webhooks then options.webhooks else s.webhooks }

/-- The snapshot getInfo returns (spec section 4.4): id, status, metadata,
webhooks. -/
structure SessionInfo where
  sessionId : String
  status : ConnStatus
  metadata : Option JSVal
  webhooks : Option JSVal
deriving Repr, DecidableEq

/-- Modelled from the spec (section 4.4): getInfo returns an immutable snapshot
of the handle. -/
def WhatsAppSession.getInfo (s : WhatsAppSession) : SessionInfo :=
  { sessionId := s.sessionId
  , status := s.connectionStatus
  , metadata := s.metadata
  , webhooks := s.webhooks }

/-- The manager registry: the JS Map from session id to handle, in insertion
order. -/
abbrev Manager := List (String × WhatsAppSession)

/-- Map.get: first entry with the key (a JS Map holds at most one). -/
def Manager.getSession : Manager → String → Option WhatsAppSession
  | [], _ => none
  | e :: rest, sessionId =>
      if e.1 == sessionId then some e.2 else getSession rest sessionId

/-- Map.has. -/
def Manager.hasSession (m : Manager) (sessionId : String) : Bool :=
  (m.getSession sessionId).isSome

/-- Map.set: replaces the entry in place when the key is present, appends at
the end otherwise. -/
def Manager.setSession : Manager → String → WhatsAppSession → Manager
  | [], sessionId, s => [(sessionId, s)]
  | e :: rest, sessionId, s =>
      if e.1 == sessionId then (sessionId, s) :: rest
      else e :: setSession rest sessionId s

/-- Map.delete. -/
def Manager.removeSession (m : Manager) (sessionId : String) : Manager :=
  m.filter (fun e => e.1 != sessionId)

/-- Number of registry entries for one id; 1 for a registered id of a
well-formed registry. -/
def Manager.countKey (m : Manager) (sessionId : String) : Nat :=
  (m.filter (fun e => e.1 == sessionId)).length

/-- Registry well-formedness: keys are unique (a JS Map) and each handle
carries the id it is registered under. -/
def Manager.WF (m : Manager) : Prop :=
  (m.map (fun e => e.1)).Nodup ∧ ∀ e ∈ m, e.2.sessionId = e.1

instance (m : Manager) : Decidable m.WF := by
  unfold Manager.WF; infer_instance

/-- WhatsAppManager.getAllSessions: the info snapshots of every registered
handle in registry iteration order. -/
def getAllSessions (m : Manager) : List SessionInfo :=
  m.map (fun e => e.2.getInfo)

/-- Effects the registry issues on handles and stores, for observing side
effects of an operation. -/
inductive Event where
  | constructed (sessionId : String)
  | configSaved (sessionId : String)
  | connectIssued (sessionId : String)
  | logoutIssued (sessionId : String)
deriving Repr, DecidableEq

/-- Results returned by createSession and deleteSession. -/
structure ApiResult where
  success : Bool
  message : String
  data : Option SessionInfo := none
deriving Repr, DecidableEq

/-- The session id validation of createSession: the JS test
of the anchored regex over letters, digits, underscore and dash on a nonempty
string; an empty id is falsy and fails the first disjunct. -/
def isAllowedChar (c : Char) : Bool :=
  c.isAlpha || c.isDigit || c == '_' || c == '-'

/-- Valid ids are the nonempty strings over the allowed character set. -/
def validSessionId (sessionId : String) : Bool :=
  sessionId != "" && sessionId.toList.all isAllowedChar

/-- The config merge performed on an existing handle by createSession:
updateConfig is invoked only when metadata or webhooks were supplied. -/
def mergeOptions (s : WhatsAppSession) (options : SessionOptions) : WhatsAppSession :=
  if optTruthy options.metadata || optTruthy options.webhooks then
    s.updateConfig options
  else s

/-- WhatsAppManager.createSession: validates the id; on an existing handle
merges options, then either reports already connected or reconnects; otherwise
constructs a handle, persists its initial config, registers it and connects.
`connectOk` is the externally determined outcome of a connection attempt made
by this call. In the source, connect mutates the registered handle in place;
here the updated handle is written back to the registry. -/
def createSession (m : Manager) (sessionId : String) (options : SessionOptions)
    (connectOk : Bool) : ApiResult × Manager × List Event :=
  if !(validSessionId sessionId) then
    ({ success := false
     , message := "Invalid session ID. Use only letters, numbers, underscore, and dash." },
     m, [])
  else
    match m.getSession sessionId with
    | some existingSession =>
        let existingSession := mergeOptions existingSession options
        let m := m.setSession sessionId existingSession
        if existingSession.connectionStatus == .connected then
          ({ success := false
           , message := "Session already connected"
           , data := some existingSession.getInfo }, m, [])
        else
          let existingSession := existingSession.connect connectOk
          ({ success := true
           , message := "Reconnecting existing session"
           , data := some existingSession.getInfo },
           m.setSession sessionId existingSession,
           [Event.connectIssued sessionId])
    | none =>
        let session := WhatsAppSession.make sessionId options
        let m := m.setSession sessionId session
        let session := session.connect connectOk
        ({ success := true
         , message := "Session created"
         , data := some session.getInfo },
         m.setSession sessionId session,
         [Event.constructed sessionId, Event.configSaved sessionId,
          Event.connectIssued sessionId])

/-- WhatsAppManager.deleteSession: an absent id is a not-found failure with no
change; a present id gets logout issued on its handle and is then removed from
the registry unconditionally, returning success. -/
def deleteSession (m : Manager) (sessionId : String) (teardownFails : Bool) :
    ApiResult × Manager × List Event :=
  match m.getSession sessionId with
  | none => ({ success := false, message := "Session not found" }, m, [])
  | some session =>
      let session := session.logout teardownFails
      ({ success := true, message := "Session deleted successfully" },
       (m.setSession sessionId session).removeSession sessionId,
       [Event.logoutIssued sessionId])

/-- The discovery phase of initExistingSessions: ids from the catalog query
(none models a failed query, which is logged and skipped) unioned with the
filesystem fallback directory names, first occurrence kept, as a JS Set built
by insertion. -/
def discoverSessionIds (catalogRows : Option (List String)) (fsDirs : List String) :
    List String :=
  ((catalogRows.getD []) ++ fsDirs).eraseDups

/-- The restore loop of initExistingSessions: for each discovered id, construct
a handle with empty options, register it, and issue connect on it. `connectOk`
gives each attempt its externally determined outcome; per the spec a failed
attempt surfaces as a status transition of that handle, not as a thrown
error. -/
def restoreSessions (m : Manager) : List String → (String → Bool) → Manager × List Event
  | [], _ => (m, [])
  | sessionId :: rest, connectOk =>
      let session := WhatsAppSession.make sessionId {}
      let session := session.connect (connectOk sessionId)
      let result := restoreSessions (m.setSession sessionId session) rest connectOk
      (result.1,
       Event.constructed sessionId :: Event.connectIssued sessionId :: result.2)

/-- WhatsAppManager.initExistingSessions: discovery followed by the restore
loop. -/
def initExistingSessions (m : Manager) (catalogRows : Option (List String))
    (fsDirs : List String) (connectOk : String → Bool) : Manager × List Event :=
  restoreSessions m (discoverSessionIds catalogRows fsDirs) connectOk

/-! ## Media storage (SupabaseStorage) -/

/-- One stored blob: bytes and content type. -/
structure MediaObject where
  bytes : List Nat
  contentType : String
deriving Repr, DecidableEq

/-- The bucket contents: path to object. -/
abbrev MediaStore := List (String × MediaObject)

/-- Point lookup of a storage path. -/
def lookupObject : MediaStore → String → Option MediaObject
  | [], _ => none
  | e :: rest, path => if e.1 == path then some e.2 else lookupObject rest path

/-- Upload with upsert true: overwrites the object at the path when present. -/
def upsertObject : MediaStore → String → MediaObject → MediaStore
  | [], path, obj => [(path, obj)]
  | e :: rest, path, obj =>
      if e.1 == path then (path, obj) :: rest
      else e :: upsertObject rest path obj

/-- The blob-service behaviour an uploadMedia call observes: whether the upload
request errors, whether signed-URL issuance errors, and the URL the service
issues for a path and validity window. -/
structure StorageEnv where
  uploadFails : Bool
  signFails : Bool
  signedUrlFor : String → Nat → String

/-- SupabaseStorage._getStoragePath: sessionId slash messageId extension. -/
def getStoragePath (sessionId messageId extension : String) : String :=
  sessionId ++ "/" ++ messageId ++ extension

/-- The result shape of uploadMedia. -/
structure UploadResult where
  success : Bool
  path : Option String := none
  url : Option String := none
  error : Option String := none
deriving Repr, DecidableEq

/-- SupabaseStorage.uploadMedia: uploads the buffer at the storage path with
overwrite, then requests a signed URL valid for 3600 seconds. An upload error
is a failure result with the store unchanged; a signed-URL error after a
successful upload is still a success result carrying the stored path and a
null URL, and the stored object is kept. -/
def uploadMedia (env : StorageEnv) (st : MediaStore) (sessionId messageId : String)
    (buffer : List Nat) (mimeType extension : String) : UploadResult × MediaStore :=
  let storagePath := getStoragePath sessionId messageId extension
  if env.uploadFails then
    ({ success := false, error := some "upload error" }, st)
  else
    let st := upsertObject st storagePath { bytes := buffer, contentType := mimeType }
    if env.signFails then
      ({ success := true, path := some storagePath, url := none }, st)
    else
      ({ success := true, path := some storagePath
       , url := some (env.signedUrlFor storagePath 3600) }, st)

/-! ## Client singleton (SupabaseClient) -/

/-- The two environment variables getSupabaseClient reads; none models an unset
variable. -/
structure ProcessEnv where
  supabaseUrl : Option String
  supabaseServiceKey : Option String
deriving Repr, DecidableEq

/-- The client instance createClient produces, identified by the configuration
it was created from. -/
structure SupabaseClientHandle where
  url : String
  key : String
deriving Repr, DecidableEq

/-- JS truthiness of an environment variable: unset (undefined) and the empty
string are falsy. -/
def envTruthy : Option String → Bool
  | none => false
  | some s => s != ""

/-- SupabaseClient.js getSupabaseClient: returns the cached instance when one
exists, without reading the environment; otherwise reads the two variables,
throws when either is falsy, and otherwise creates and caches a client. The
returned pair is the client and the cache afterwards. -/
def getSupabaseClient (cached : Option SupabaseClientHandle) (env : ProcessEnv) :
    Except String (SupabaseClientHandle × Option SupabaseClientHandle) :=
  match cached with
  | some client => .ok (client, some client)
  | none =>
      if !(envTruthy env.supabaseUrl) || !(envTruthy env.supabaseServiceKey) then
        .error "SUPABASE_URL and SUPABASE_SERVICE_KEY must be set in environment variables"
      else
        let client : SupabaseClientHandle :=
          { url := env.supabaseUrl.getD "", key := env.supabaseServiceKey.getD "" }
        .ok (client, some client)

/-! ## Helper lemmas about the credential store -/

theorem lookupKey_upsertKey_self (st : AuthStore) (k : String) (v : JSVal) :
    lookupKey (upsertKey st k v) k = some v := by
  induction st with
  | nil => simp [upsertKey, lookupKey]
  | cons row rest ih =>
      by_cases h : row.1 = k
      · simp [upsertKey, h, lookupKey]
      · simp [upsertKey, h, lookupKey, ih]

theorem lookupKey_upsertKey_other (st : AuthStore) (k k2 : String) (v : JSVal)
    (h : k2 ≠ k) : lookupKey (upsertKey st k v) k2 = lookupKey st k2 := by
  induction st with
  | nil => simp [upsertKey, lookupKey, Ne.symm h]
  | cons row rest ih =>
      by_cases hr : row.1 = k
      · simp [upsertKey, hr, lookupKey, Ne.symm h]
      · simp [upsertKey, hr, lookupKey, ih]

theorem lookupKey_removeKey_self (st : AuthStore) (k : String) :
    lookupKey (removeKey st k) k = none := by
  induction st with
  | nil => simp [removeKey, lookupKey]
  | cons row rest ih =>
      by_cases h : row.1 = k
      · simp [removeKey, h, ih]
      · simp [removeKey, h, lookupKey, ih]

theorem lookupKey_removeKey_other (st : AuthStore) (k k2 : String) (h : k2 ≠ k) :
    lookupKey (removeKey st k) k2 = lookupKey st k2 := by
  induction st with
  | nil => simp [removeKey]
  | cons row rest ih =>
      by_cases hr : row.1 = k
      · simp [removeKey, hr, lookupKey, Ne.symm h, ih]
      · simp [removeKey, hr, lookupKey, ih]

theorem lookupKey_applySetOp_other (we re : List String) (st : AuthStore)
    (op : String × JSVal) (k : String) (h : k ≠ op.1) :
    lookupKey (applySetOp we re st op) k = lookupKey st k := by
  unfold applySetOp writeData removeData
  by_cases ht : jsTruthy op.2
  · simp only [ht, if_true]
    by_cases he : op.1 ∈ we
    · simp [he]
    · simp [he, lookupKey_upsertKey_other st op.1 k op.2 h]
  · simp only [ht, if_false]
    by_cases he : op.1 ∈ re
    · simp [he]
    · simp [he, lookupKey_removeKey_other st op.1 k h]

theorem lookupKey_setFold_not_mem (we re : List String) (ops : List (String × JSVal))
    (st : AuthStore) (k : String) (h : ∀ op ∈ ops, k ≠ op.1) :
    lookupKey (ops.foldl (applySetOp we re) st) k = lookupKey st k := by
  induction ops generalizing st with
  | nil => rfl
  | cons op rest ih =>
      rw [List.foldl_cons, ih _ (fun o ho => h o (List.mem_cons_of_mem _ ho)),
        lookupKey_applySetOp_other we re st op k (h op (List.mem_cons_self _ _))]

theorem lookupKey_setFold_mem (we re : List String) (ops : List (String × JSVal))
    (st : AuthStore) (k : String) (v : JSVal)
    (hnd : (ops.map (fun op => op.1)).Nodup) (hmem : (k, v) ∈ ops) :
    lookupKey (ops.foldl (applySetOp we re) st) k =
      if jsTruthy v then (if k ∈ we then lookupKey st k else some v)
      else (if k ∈ re then lookupKey st k else none) := by
  induction ops generalizing st with
  | nil => cases hmem
  | cons op rest ih =>
      rw [List.map_cons, List.nodup_cons] at hnd
      rcases List.mem_cons.mp hmem with heq | htail
      · subst heq
        rw [List.foldl_cons,
          lookupKey_setFold_not_mem we re rest _ k
            (fun o ho hko => hnd.1 (hko ▸ List.mem_map_of_mem (fun p => p.1) ho))]
        unfold applySetOp writeData removeData
        by_cases ht : jsTruthy v
        · by_cases he : k ∈ we <;> simp [ht, he, lookupKey_upsertKey_self]
        · by_cases he : k ∈ re <;> simp [ht, he, lookupKey_removeKey_self]
      · have hk : k ≠ op.1 := by
          intro hko
          exact hnd.1 (hko ▸ List.mem_map_of_mem (fun p => p.1) htail)
        rw [List.foldl_cons, ih _ hnd.2 htail,
          lookupKey_applySetOp_other we re st op k hk]

/-! ## Claim theorems about the credential adapter -/

/-- C3: constructing the credential adapter for a session whose creds row
exists in the store (with the truthy object value every creds row the system
writes holds) loads that row verbatim, for every randomness, and issues no
write: the store is unchanged, so the existing row is never overwritten with a
fresh identity; the initAuthCreds fallback is reached only when the read of the
creds key comes back absent. -/
theorem bootstrap_at_most_once (store : AuthStore) (readErr : List String)
    (c : CryptoEnv) (r : Rng) (v : JSVal)
    (hv : lookupKey store "creds" = some v) (ht : jsTruthy v = true)
    (he : "creds" ∉ readErr) :
    (useSupabaseAuthState store readErr c r).creds = v
    ∧ (useSupabaseAuthState store readErr c r).store = store := by
  exact ⟨by simp [useSupabaseAuthState, readData, he, hv, jsOr, ht], rfl⟩

theorem bootstrap_at_most_once_witness :
    lookupKey [("creds", JSVal.objOf [("registered", .bool false)])] "creds"
        = some (JSVal.objOf [("registered", .bool false)])
    ∧ jsTruthy (JSVal.objOf [("registered", .bool false)]) = true
    ∧ "creds" ∉ ([] : List String)
    ∧ ((useSupabaseAuthState [("creds", JSVal.objOf [("registered", .bool false)])] []
          ⟨fun bs => bs, fun _ bs => bs, fun _ => ""⟩
          ⟨[], [], [], 0, [], 0, []⟩).creds
        = JSVal.objOf [("registered", .bool false)]
      ∧ (useSupabaseAuthState [("creds", JSVal.objOf [("registered", .bool false)])] []
          ⟨fun bs => bs, fun _ bs => bs, fun _ => ""⟩
          ⟨[], [], [], 0, [], 0, []⟩).store
        = [("creds", JSVal.objOf [("registered", .bool false)])]) :=
  ⟨by decide, by decide, by decide,
   bootstrap_at_most_once _ _ _ _ _ (by decide) (by decide) (by decide)⟩

/-- C4, counterexample to the claim as stated: for the app-state-sync-key
category the value read back is the typed reconstruction, not the original.
Writing an object carrying an unknown field and reading it back under the same
category and id yields a value different from the one written. -/
theorem credential_roundtrip_counterexample :
    ¬ (keysGet
        (keysSet [] [] []
          [("app-state-sync-key", [("1", JSVal.objOf [("foo", .num 1)])])])
        [] "app-state-sync-key" ["1"]
      = [("1", some (JSVal.objOf [("foo", .num 1)]))]) := by decide

/-- C4, amended: writing a present (truthy) value through keys.set under
(category, id) and reading it back through keys.get yields the original value
for every category other than app-state-sync-key; for app-state-sync-key the
value read back is the typed reconstruction fromObject of the original, which
coincides with the original exactly when the original is fixed by that
reconstruction. -/
theorem credential_roundtrip_amended (category id : String) (v : JSVal)
    (st : AuthStore) (hv : jsTruthy v = true) :
    keysGet (keysSet st [] [] [(category, [(id, v)])]) [] category [id]
      = [(id, some (if category == "app-state-sync-key" then fromObject v else v))]
    ∧ (category ≠ "app-state-sync-key" →
        keysGet (keysSet st [] [] [(category, [(id, v)])]) [] category [id]
          = [(id, some v)]) := by
  have hst : keysSet st [] [] [(category, [(id, v)])]
      = upsertKey st (keyIdOf category id) v := by
    simp [keysSet, setOps, applySetOp, writeData, hv]
  have hlk : lookupKey (upsertKey st (keyIdOf category id) v) (keyIdOf category id)
      = some v := lookupKey_upsertKey_self st (keyIdOf category id) v
  constructor
  · by_cases hc : category == "app-state-sync-key"
    · simp [keysGet, hst, readData, hlk, hc, hv]
    · simp [keysGet, hst, readData, hlk, hc]
  · intro hne
    have hc : (category == "app-state-sync-key") = false := by
      simp [hne]
    simp [keysGet, hst, readData, hlk, hc]

theorem credential_roundtrip_amended_witness :
    jsTruthy (JSVal.bytes [7, 7]) = true
    ∧ (keysGet (keysSet [] [] [] [("session", [("3", JSVal.bytes [7, 7])])])
          [] "session" ["3"]
        = [("3", some (if ("session" : String) == "app-state-sync-key"
            then fromObject (JSVal.bytes [7, 7]) else JSVal.bytes [7, 7]))]
      ∧ (("session" : String) ≠ "app-state-sync-key" →
          keysGet (keysSet [] [] [] [("session", [("3", JSVal.bytes [7, 7])])])
            [] "session" ["3"]
          = [("3", some (JSVal.bytes [7, 7]))])) :=
  ⟨by decide, credential_roundtrip_amended "session" "3" (JSVal.bytes [7, 7]) [] (by decide)⟩

/-- C7: keys.get resolves every requested id to an entry of the returned
mapping; an id whose store read errors gets an absent value without failing the
lookups of the other ids; values of exactly the app-state-sync-key category are
passed through the typed reconstruction fromObject, every other category being
returned verbatim. -/
theorem keysGet_spec (store : AuthStore) (readErr : List String) (type : String)
    (ids : List String) (id : String) (h : id ∈ ids) :
    (∃ w, (id, w) ∈ keysGet store readErr type ids)
    ∧ (keyIdOf type id ∈ readErr → (id, none) ∈ keysGet store readErr type ids)
    ∧ (keyIdOf type id ∉ readErr → type ≠ "app-state-sync-key" →
        (id, lookupKey store (keyIdOf type id)) ∈ keysGet store readErr type ids)
    ∧ (keyIdOf type id ∉ readErr → type = "app-state-sync-key" →
        ∀ v, lookupKey store (keyIdOf type id) = some v → jsTruthy v = true →
        (id, some (fromObject v)) ∈ keysGet store readErr type ids) := by
  refine ⟨⟨_, List.mem_map_of_mem _ h⟩, fun he => ?_, fun he hne => ?_,
    fun he hty v hv ht => ?_⟩
  · have : (fun i => ((i : String),
        let value := readData store readErr (keyIdOf type i)
        let value :=
          if type == "app-state-sync-key" then
            match value with
            | some v => if jsTruthy v then some (fromObject v) else some v
            | none => none
          else value
        value)) id = (id, none) := by
      simp [readData, he]
    exact this ▸ List.mem_map_of_mem _ h
  · have hc : (type == "app-state-sync-key") = false := by simp [hne]
    have : (fun i => ((i : String),
        let value := readData store readErr (keyIdOf type i)
        let value :=
          if type == "app-state-sync-key" then
            match value with
            | some v => if jsTruthy v then some (fromObject v) else some v
            | none => none
          else value
        value)) id = (id, lookupKey store (keyIdOf type id)) := by
      simp [readData, he, hc]
    exact this ▸ List.mem_map_of_mem _ h
  · subst hty
    have : (fun i => ((i : String),
        let value := readData store readErr (keyIdOf "app-state-sync-key" i)
        let value :=
          if ("app-state-sync-key" : String) == "app-state-sync-key" then
            match value with
            | some v => if jsTruthy v then some (fromObject v) else some v
            | none => none
          else value
        value)) id = (id, some (fromObject v)) := by
      simp [readData, he, hv, ht]
    exact this ▸ List.mem_map_of_mem _ h

theorem keysGet_spec_witness :
    ("k1" : String) ∈ ["k1", "k2"]
    ∧ ((∃ w, (("k1" : String), w)
          ∈ keysGet [("session-k1", JSVal.bytes [1])] ["session-k2"] "session" ["k1", "k2"])
      ∧ (keyIdOf "session" "k1" ∈ ["session-k2"] →
          (("k1" : String), (none : Option JSVal))
            ∈ keysGet [("session-k1", JSVal.bytes [1])] ["session-k2"] "session" ["k1", "k2"])
      ∧ (keyIdOf "session" "k1" ∉ ["session-k2"] → ("session" : String) ≠ "app-state-sync-key" →
          (("k1" : String), lookupKey [("session-k1", JSVal.bytes [1])] (keyIdOf "session" "k1"))
            ∈ keysGet [("session-k1", JSVal.bytes [1])] ["session-k2"] "session" ["k1", "k2"])
      ∧ (keyIdOf "session" "k1" ∉ ["session-k2"] → ("session" : String) = "app-state-sync-key" →
          ∀ v, lookupKey [("session-k1", JSVal.bytes [1])] (keyIdOf "session" "k1") = some v →
          jsTruthy v = true →
          (("k1" : String), some (fromObject v))
            ∈ keysGet [("session-k1", JSVal.bytes [1])] ["session-k2"] "session" ["k1", "k2"])) :=
  ⟨by decide, keysGet_spec [("session-k1", JSVal.bytes [1])] ["session-k2"] "session"
    ["k1", "k2"] "k1" (by decide)⟩

/-- C8: keys.set issues one task per (category, id, value) triple; when the
tasks of the call touch pairwise distinct keys, every triple with a truthy
value whose write does not error ends upserted under category-id, every triple
with a falsy value whose delete does not error ends with that key deleted, an
individual key whose write errors keeps its previous stored value while every
sibling write of the same call still takes effect, and keys not touched by the
call are unchanged. -/
theorem keysSet_spec (st : AuthStore) (writeErr removeErr : List String)
    (data : CategorizedData) (category id : String) (v : JSVal)
    (hnd : ((setOps data).map (fun op => op.1)).Nodup)
    (hmem : ∃ entries, (category, entries) ∈ data ∧ (id, v) ∈ entries) :
    ((keyIdOf category id, v) ∈ setOps data)
    ∧ (jsTruthy v = true → keyIdOf category id ∉ writeErr →
        lookupKey (keysSet st writeErr removeErr data) (keyIdOf category id) = some v)
    ∧ (jsTruthy v = true → keyIdOf category id ∈ writeErr →
        lookupKey (keysSet st writeErr removeErr data) (keyIdOf category id)
          = lookupKey st (keyIdOf category id))
    ∧ (jsTruthy v = false → keyIdOf category id ∉ removeErr →
        lookupKey (keysSet st writeErr removeErr data) (keyIdOf category id) = none)
    ∧ (∀ k, (∀ op ∈ setOps data, k ≠ op.1) →
        lookupKey (keysSet st writeErr removeErr data) k = lookupKey st k) := by
  obtain ⟨entries, hcat, hentry⟩ := hmem
  have hop : (keyIdOf category id, v) ∈ setOps data := by
    unfold setOps
    exact List.mem_flatMap.mpr ⟨(category, entries), hcat,
      List.mem_map_of_mem _ hentry⟩
  have hfold := lookupKey_setFold_mem writeErr removeErr (setOps data) st
    (keyIdOf category id) v hnd hop
  refine ⟨hop, fun ht he => ?_, fun ht he => ?_, fun ht he => ?_, fun k hk => ?_⟩
  · rw [keysSet, hfold]; simp [ht, he]
  · rw [keysSet, hfold]; simp [ht, he]
  · rw [keysSet, hfold]; simp [ht, he]
  · exact lookupKey_setFold_not_mem writeErr removeErr (setOps data) st k hk

theorem keysSet_spec_witness :
    ((setOps [("session", [("a", JSVal.bytes [1]), ("b", JSVal.null)])]).map
        (fun op => op.1)).Nodup
    ∧ (∃ entries, (("session" : String), entries)
          ∈ [("session", [("a", JSVal.bytes [1]), ("b", JSVal.null)])]
        ∧ (("a" : String), JSVal.bytes [1]) ∈ entries)
    ∧ (((keyIdOf "session" "a", JSVal.bytes [1])
          ∈ setOps [("session", [("a", JSVal.bytes [1]), ("b", JSVal.null)])])
      ∧ (jsTruthy (JSVal.bytes [1]) = true → keyIdOf "session" "a" ∉ ([] : List String) →
          lookupKey (keysSet [("session-b", JSVal.bytes [2])] [] []
              [("session", [("a", JSVal.bytes [1]), ("b", JSVal.null)])])
            (keyIdOf "session" "a") = some (JSVal.bytes [1]))
      ∧ (jsTruthy (JSVal.bytes [1]) = true → keyIdOf "session" "a" ∈ ([] : List String) →
          lookupKey (keysSet [("session-b", JSVal.bytes [2])] [] []
              [("session", [("a", JSVal.bytes [1]), ("b", JSVal.null)])])
            (keyIdOf "session" "a")
          = lookupKey [("session-b", JSVal.bytes [2])] (keyIdOf "session" "a"))
      ∧ (jsTruthy (JSVal.bytes [1]) = false → keyIdOf "session" "a" ∉ ([] : List String) →
          lookupKey (keysSet [("session-b", JSVal.bytes [2])] [] []
              [("session", [("a", JSVal.bytes [1]), ("b", JSVal.null)])])
            (keyIdOf "session" "a") = none)
      ∧ (∀ k, (∀ op ∈ setOps [("session", [("a", JSVal.bytes [1]), ("b", JSVal.null)])],
            k ≠ op.1) →
          lookupKey (keysSet [("session-b", JSVal.bytes [2])] [] []
              [("session", [("a", JSVal.bytes [1]), ("b", JSVal.null)])]) k
            = lookupKey [("session-b", JSVal.bytes [2])] k)) :=
  ⟨by decide, ⟨[("a", JSVal.bytes [1]), ("b", JSVal.null)], by decide, by decide⟩,
   keysSet_spec [("session-b", JSVal.bytes [2])] [] []
     [("session", [("a", JSVal.bytes [1]), ("b", JSVal.null)])] "session" "a"
     (JSVal.bytes [1]) (by decide)
     ⟨[("a", JSVal.bytes [1]), ("b", JSVal.null)], by decide, by decide⟩⟩

/-! ## Helper lemmas about the session registry -/

theorem getSession_setSession_self (m : Manager) (k : String) (s : WhatsAppSession) :
    (m.setSession k s).getSession k = some s := by
  induction m with
  | nil => simp [Manager.setSession, Manager.getSession]
  | cons e rest ih =>
      by_cases h : e.1 = k
      · simp [Manager.setSession, h, Manager.getSession]
      · simp [Manager.setSession, h, Manager.getSession, ih]

theorem getSession_setSession_other (m : Manager) (k k2 : String) (s : WhatsAppSession)
    (h : k2 ≠ k) : (m.setSession k s).getSession k2 = m.getSession k2 := by
  induction m with
  | nil => simp [Manager.setSession, Manager.getSession, Ne.symm h]
  | cons e rest ih =>
      by_cases hr : e.1 = k
      · simp [Manager.setSession, hr, Manager.getSession, Ne.symm h]
      · simp [Manager.setSession, hr, Manager.getSession, ih]

theorem getSession_mem (m : Manager) (k : String) (s : WhatsAppSession)
    (h : m.getSession k = some s) : (k, s) ∈ m := by
  induction m with
  | nil => cases h
  | cons e rest ih =>
      by_cases hr : e.1 = k
      · simp [Manager.getSession, hr] at h
        subst h
        exact hr ▸ List.mem_cons_self _ _
      · simp [Manager.getSession, hr] at h
        exact List.mem_cons_of_mem _ (ih h)

theorem getSession_removeSession_self (m : Manager) (k : String) :
    (m.removeSession k).getSession k = none := by
  induction m with
  | nil => rfl
  | cons e rest ih =>
      by_cases hr : e.1 = k
      · simpa [Manager.removeSession, List.filter_cons, hr] using ih
      · simpa [Manager.removeSession, List.filter_cons, hr, Manager.getSession] using ih

theorem mem_removeSession (m : Manager) (k : String) (e : String × WhatsAppSession)
    (h : e ∈ m.removeSession k) : e ∈ m ∧ e.1 ≠ k := by
  rw [Manager.removeSession] at h
  have h2 := List.mem_filter.mp h
  exact ⟨h2.1, by simpa using h2.2⟩

theorem mem_keys_setSession (m : Manager) (k a : String) (s : WhatsAppSession)
    (h : a ∈ (m.setSession k s).map (fun e => e.1)) :
    a = k ∨ a ∈ m.map (fun e => e.1) := by
  induction m with
  | nil =>
      simp [Manager.setSession] at h
      exact Or.inl h
  | cons e rest ih =>
      by_cases hr : e.1 = k
      · simp [Manager.setSession, hr] at h
        rcases h with h | h
        · exact Or.inl h
        · exact Or.inr (by simp [h])
      · simp [Manager.setSession, hr] at h
        rcases h with h | h
        · exact Or.inr (by simp [h])
        · rcases ih (by simpa using h) with h2 | h2
          · exact Or.inl h2
          · exact Or.inr (by simp [h2])

theorem keysNodup_setSession (m : Manager) (k : String) (s : WhatsAppSession)
    (h : (m.map (fun e => e.1)).Nodup) :
    ((m.setSession k s).map (fun e => e.1)).Nodup := by
  induction m with
  | nil => simp [Manager.setSession]
  | cons e rest ih =>
      rw [List.map_cons, List.nodup_cons] at h
      by_cases hr : e.1 = k
      · rw [Manager.setSession, if_pos (by simp [hr])]
        rw [List.map_cons, List.nodup_cons]
        exact ⟨hr ▸ h.1, h.2⟩
      · rw [Manager.setSession, if_neg (by simp [hr])]
        rw [List.map_cons, List.nodup_cons]
        refine ⟨fun hmem => ?_, ih h.2⟩
        rcases mem_keys_setSession rest k e.1 s hmem with h2 | h2
        · exact hr h2
        · exact h.1 h2

theorem coherent_setSession (m : Manager) (k : String) (s : WhatsAppSession)
    (hc : ∀ e ∈ m, e.2.sessionId = e.1) (hs : s.sessionId = k) :
    ∀ e ∈ m.setSession k s, e.2.sessionId = e.1 := by
  induction m with
  | nil =>
      intro e he
      simp [Manager.setSession] at he
      subst he
      exact hs
  | cons e0 rest ih =>
      intro e he
      by_cases hr : e0.1 = k
      · rw [Manager.setSession, if_pos (by simp [hr])] at he
        rcases List.mem_cons.mp he with h | h
        · subst h; exact hs
        · exact hc e (List.mem_cons_of_mem _ h)
      · rw [Manager.setSession, if_neg (by simp [hr])] at he
        rcases List.mem_cons.mp he with h | h
        · rw [h]; exact hc e0 (List.mem_cons_self _ _)
        · exact ih (fun e2 he2 => hc e2 (List.mem_cons_of_mem _ he2)) e h

theorem WF_setSession (m : Manager) (k : String) (s : WhatsAppSession)
    (hwf : m.WF) (hs : s.sessionId = k) : (m.setSession k s).WF :=
  ⟨keysNodup_setSession m k s hwf.1, coherent_setSession m k s hwf.2 hs⟩

theorem countKey_cons (e : String × WhatsAppSession) (m : Manager) (k : String) :
    Manager.countKey (e :: m) k
      = if e.1 = k then Manager.countKey m k + 1 else Manager.countKey m k := by
  rw [Manager.countKey, List.filter_cons]
  by_cases h : e.1 = k <;> simp [h, Manager.countKey]

theorem countKey_eq_zero_of_not_mem (m : Manager) (k : String)
    (h : k ∉ m.map (fun e => e.1)) : m.countKey k = 0 := by
  induction m with
  | nil => rfl
  | cons e rest ih =>
      rw [List.map_cons, List.mem_cons] at h
      push_neg at h
      rw [countKey_cons, if_neg (fun h2 => h.1 h2.symm)]
      exact ih h.2

theorem countKey_setSession (m : Manager) (k : String) (s : WhatsAppSession)
    (h : (m.map (fun e => e.1)).Nodup) : (m.setSession k s).countKey k = 1 := by
  induction m with
  | nil => simp [Manager.setSession, Manager.countKey]
  | cons e rest ih =>
      rw [List.map_cons, List.nodup_cons] at h
      by_cases hr : e.1 = k
      · rw [Manager.setSession, if_pos (by simp [hr])]
        rw [countKey_cons, if_pos rfl,
          countKey_eq_zero_of_not_mem rest k (hr ▸ h.1)]
      · rw [Manager.setSession, if_neg (by simp [hr])]
        rw [countKey_cons, if_neg hr]
        exact ih h.2

theorem hasSession_setSession_self (m : Manager) (k : String) (s : WhatsAppSession) :
    (m.setSession k s).hasSession k = true := by
  rw [Manager.hasSession, getSession_setSession_self]
  rfl

/-! ## Helper lemmas about the session handle model -/

theorem logout_sessionId (s : WhatsAppSession) (b : Bool) :
    (s.logout b).sessionId = s.sessionId := rfl

theorem connect_sessionId (s : WhatsAppSession) (ok : Bool) :
    (s.connect ok).sessionId = s.sessionId := by
  rw [WhatsAppSession.connect]
  split <;> rfl

theorem updateConfig_sessionId (s : WhatsAppSession) (o : SessionOptions) :
    (s.updateConfig o).sessionId = s.sessionId := rfl

theorem mergeOptions_sessionId (s : WhatsAppSession) (o : SessionOptions) :
    (mergeOptions s o).sessionId = s.sessionId := by
  rw [mergeOptions]
  split <;> rfl

theorem make_sessionId (k : String) (o : SessionOptions) :
    (WhatsAppSession.make k o).sessionId = k := rfl

theorem mergeOptions_connectionStatus (s : WhatsAppSession) (o : SessionOptions) :
    (mergeOptions s o).connectionStatus = s.connectionStatus := by
  rw [mergeOptions]
  split <;> rfl

theorem connect_make_not_connected (k : String) (o : SessionOptions) (ok : Bool) :
    ((WhatsAppSession.make k o).connect ok).connectionStatus ≠ .connected := by
  rw [WhatsAppSession.make, WhatsAppSession.connect]
  cases ok <;> simp

/-! ## Claim theorems about the session registry -/

/-- C1: deleteSession on an id with no registered handle returns a not-found
failure and leaves the registry unchanged; on an id with a registered handle it
issues logout on that handle, removes the handle from the registry
unconditionally (the id is absent from getAllSessions afterwards even when the
teardown of the handle encountered errors, injected by teardownFails) and
returns a success result. -/
theorem deleteSession_spec (m : Manager) (sessionId : String) (teardownFails : Bool)
    (hwf : m.WF) :
    (m.hasSession sessionId = false →
      deleteSession m sessionId teardownFails
        = ({ success := false, message := "Session not found" }, m, []))
    ∧ (m.hasSession sessionId = true →
        (deleteSession m sessionId teardownFails).1
          = { success := true, message := "Session deleted successfully" }
        ∧ Event.logoutIssued sessionId ∈ (deleteSession m sessionId teardownFails).2.2
        ∧ (deleteSession m sessionId teardownFails).2.1.hasSession sessionId = false
        ∧ ∀ info ∈ getAllSessions (deleteSession m sessionId teardownFails).2.1,
            info.sessionId ≠ sessionId) := by
  constructor
  · intro h
    cases hm : m.getSession sessionId with
    | some s => rw [Manager.hasSession, hm] at h; cases h
    | none => simp [deleteSession, hm]
  · intro h
    cases hm : m.getSession sessionId with
    | none => rw [Manager.hasSession, hm] at h; cases h
    | some s =>
        have hsid : s.sessionId = sessionId := hwf.2 _ (getSession_mem m sessionId s hm)
        refine ⟨by simp [deleteSession, hm], by simp [deleteSession, hm], ?_, ?_⟩
        · simp [deleteSession, hm, Manager.hasSession, getSession_removeSession_self]
        · intro info hinfo
          simp only [deleteSession, hm] at hinfo
          obtain ⟨e, he, hei⟩ := List.mem_map.mp hinfo
          obtain ⟨hmem, hne⟩ := mem_removeSession _ _ _ he
          have hcoh : e.2.sessionId = e.1 :=
            coherent_setSession m sessionId (s.logout teardownFails) hwf.2
              (by rw [logout_sessionId, hsid]) e hmem
          intro hcontra
          apply hne
          rw [← hcoh, ← hcontra, ← hei]
          rfl

theorem deleteSession_spec_witness :
    Manager.WF [("a", ⟨"a", .connected, none, none⟩)]
    ∧ ((Manager.hasSession [("a", ⟨"a", .connected, none, none⟩)] "missing" = false →
          deleteSession [("a", ⟨"a", .connected, none, none⟩)] "missing" true
            = ({ success := false, message := "Session not found" },
               [("a", ⟨"a", .connected, none, none⟩)], []))
      ∧ (Manager.hasSession [("a", ⟨"a", .connected, none, none⟩)] "a" = true →
          (deleteSession [("a", ⟨"a", .connected, none, none⟩)] "a" true).1
            = { success := true, message := "Session deleted successfully" }
          ∧ Event.logoutIssued "a"
              ∈ (deleteSession [("a", ⟨"a", .connected, none, none⟩)] "a" true).2.2
          ∧ (deleteSession [("a", ⟨"a", .connected, none, none⟩)] "a" true).2.1.hasSession "a"
              = false
          ∧ ∀ info ∈ getAllSessions
                (deleteSession [("a", ⟨"a", .connected, none, none⟩)] "a" true).2.1,
              info.sessionId ≠ "a")) :=
  ⟨by decide,
   ⟨(deleteSession_spec [("a", ⟨"a", .connected, none, none⟩)] "missing" true (by decide)).1,
    (deleteSession_spec [("a", ⟨"a", .connected, none, none⟩)] "a" true (by decide)).2⟩⟩

/-- Restoring a list of discovered ids registers every one of them and issues
connect on every one of them, for every pattern of per-session connection
outcomes. -/
theorem restoreSessions_preserves (ids : List String) (m : Manager)
    (connectOk : String → Bool) (k : String) (h : m.hasSession k = true) :
    ((restoreSessions m ids connectOk).1).hasSession k = true := by
  induction ids generalizing m with
  | nil => exact h
  | cons sid rest ih =>
      simp only [restoreSessions]
      apply ih
      by_cases hk : k = sid
      · subst hk; exact hasSession_setSession_self ..
      · rw [Manager.hasSession, getSession_setSession_other _ _ _ _ hk]
        exact h

theorem restoreSessions_registers (ids : List String) (m : Manager)
    (connectOk : String → Bool) (k : String) (h : k ∈ ids) :
    ((restoreSessions m ids connectOk).1).hasSession k = true
    ∧ Event.constructed k ∈ (restoreSessions m ids connectOk).2
    ∧ Event.connectIssued k ∈ (restoreSessions m ids connectOk).2 := by
  induction ids generalizing m with
  | nil => cases h
  | cons sid rest ih =>
      rcases List.mem_cons.mp h with heq | htail
      · subst heq
        refine ⟨?_, ?_, ?_⟩
        · simp only [restoreSessions]
          exact restoreSessions_preserves rest _ connectOk k (hasSession_setSession_self ..)
        · simp [restoreSessions]
        · simp [restoreSessions]
      · have h2 := ih htail (m := m.setSession sid
          ((WhatsAppSession.make sid {}).connect (connectOk sid)))
        exact ⟨h2.1, by simp [restoreSessions, h2.2.1], by simp [restoreSessions, h2.2.2]⟩

/-- C2: during initExistingSessions, every discovered session id ends up
registered in the registry with connect issued on its handle, whatever the
connection outcome of each attempt: a failed connect of one discovered session
does not prevent the remaining discovered sessions from being instantiated,
registered, and asked to connect. -/
theorem initExistingSessions_isolated (m : Manager) (catalogRows : Option (List String))
    (fsDirs : List String) (connectOk : String → Bool) (sessionId : String)
    (h : sessionId ∈ discoverSessionIds catalogRows fsDirs) :
    (initExistingSessions m catalogRows fsDirs connectOk).1.hasSession sessionId = true
    ∧ Event.constructed sessionId ∈ (initExistingSessions m catalogRows fsDirs connectOk).2
    ∧ Event.connectIssued sessionId
        ∈ (initExistingSessions m catalogRows fsDirs connectOk).2 :=
  restoreSessions_registers (discoverSessionIds catalogRows fsDirs) m connectOk sessionId h

theorem initExistingSessions_isolated_witness :
    ("b" : String) ∈ discoverSessionIds (some ["a"]) ["b"]
    ∧ ((initExistingSessions [] (some ["a"]) ["b"]
          (fun sid => sid != "a")).1.hasSession "b" = true
      ∧ Event.constructed "b"
          ∈ (initExistingSessions [] (some ["a"]) ["b"] (fun sid => sid != "a")).2
      ∧ Event.connectIssued "b"
          ∈ (initExistingSessions [] (some ["a"]) ["b"] (fun sid => sid != "a")).2) :=
  ⟨by decide,
   initExistingSessions_isolated [] (some ["a"]) ["b"] (fun sid => sid != "a") "b" (by decide)⟩

/-- C5: createSession on an empty id, or on an id containing any character
outside letters, digits, underscore and dash, returns a validation failure with
the validation message, leaves the registry unchanged and issues no effect: no
handle is constructed or registered, no config is saved, no connect is
attempted. -/
theorem createSession_invalid (m : Manager) (sessionId : String)
    (options : SessionOptions) (connectOk : Bool)
    (h : sessionId = "" ∨ ∃ c ∈ sessionId.toList, isAllowedChar c = false) :
    createSession m sessionId options connectOk
      = ({ success := false
         , message := "Invalid session ID. Use only letters, numbers, underscore, and dash." },
         m, []) := by
  have hv : validSessionId sessionId = false := by
    rcases h with h | ⟨ch, hc, hf⟩
    · simp [validSessionId, h]
    · have hall : sessionId.toList.all isAllowedChar = false := by
        rw [List.all_eq_false]
        exact ⟨ch, hc, by simp [hf]⟩
      rw [validSessionId, hall, Bool.and_false]
  simp [createSession, hv]

theorem createSession_invalid_witness :
    (("bad!id" : String) = "" ∨ ∃ c ∈ ("bad!id" : String).toList, isAllowedChar c = false)
    ∧ createSession [("a", ⟨"a", .connected, none, none⟩)] "bad!id" {} true
        = ({ success := false
           , message := "Invalid session ID. Use only letters, numbers, underscore, and dash." },
           [("a", ⟨"a", .connected, none, none⟩)], []) :=
  ⟨Or.inr ⟨'!', by decide, by decide⟩,
   createSession_invalid [("a", ⟨"a", .connected, none, none⟩)] "bad!id" {} true
     (Or.inr ⟨'!', by decide, by decide⟩)⟩

/-- Branch equation for createSession: valid id, existing handle already
connected after the config merge. -/
theorem createSession_eq_connected (m : Manager) (sessionId : String)
    (options : SessionOptions) (connectOk : Bool) (s0 : WhatsAppSession)
    (hv : validSessionId sessionId = true)
    (hm : m.getSession sessionId = some s0)
    (hst : (mergeOptions s0 options).connectionStatus = .connected) :
    createSession m sessionId options connectOk
      = ({ success := false, message := "Session already connected"
         , data := some (mergeOptions s0 options).getInfo },
         m.setSession sessionId (mergeOptions s0 options), []) := by
  simp [createSession, hv, hm, hst]

/-- Branch equation for createSession: valid id, existing handle not connected,
so the call reconnects it. -/
theorem createSession_eq_reconnect (m : Manager) (sessionId : String)
    (options : SessionOptions) (connectOk : Bool) (s0 : WhatsAppSession)
    (hv : validSessionId sessionId = true)
    (hm : m.getSession sessionId = some s0)
    (hst : (mergeOptions s0 options).connectionStatus ≠ .connected) :
    createSession m sessionId options connectOk
      = ({ success := true, message := "Reconnecting existing session"
         , data := some ((mergeOptions s0 options).connect connectOk).getInfo },
         (m.setSession sessionId (mergeOptions s0 options)).setSession sessionId
           ((mergeOptions s0 options).connect connectOk),
         [Event.connectIssued sessionId]) := by
  simp [createSession, hv, hm, hst]

/-- Branch equation for createSession: valid id with no registered handle, so a
fresh handle is constructed, saved, registered and connected. -/
theorem createSession_eq_fresh (m : Manager) (sessionId : String)
    (options : SessionOptions) (connectOk : Bool)
    (hv : validSessionId sessionId = true)
    (hm : m.getSession sessionId = none) :
    createSession m sessionId options connectOk
      = ({ success := true, message := "Session created"
         , data := some ((WhatsAppSession.make sessionId options).connect connectOk).getInfo },
         (m.setSession sessionId (WhatsAppSession.make sessionId options)).setSession sessionId
           ((WhatsAppSession.make sessionId options).connect connectOk),
         [Event.constructed sessionId, Event.configSaved sessionId,
          Event.connectIssued sessionId]) := by
  simp [createSession, hv, hm]

/-- A createSession call on a valid id leaves exactly one registered handle for
that id, a well-formed registry, and constructs a handle only when the id was
absent. -/
theorem createSession_valid_registers (m : Manager) (sessionId : String)
    (options : SessionOptions) (connectOk : Bool)
    (hwf : m.WF) (hv : validSessionId sessionId = true) :
    ∃ s, (createSession m sessionId options connectOk).2.1.getSession sessionId = some s
      ∧ (createSession m sessionId options connectOk).2.1.WF
      ∧ (createSession m sessionId options connectOk).2.1.countKey sessionId = 1
      ∧ ((createSession m sessionId options connectOk).2.2).count (Event.constructed sessionId)
          = (if m.hasSession sessionId then 0 else 1) := by
  cases hm : m.getSession sessionId with
  | some s0 =>
      have hsid0 : s0.sessionId = sessionId := hwf.2 _ (getSession_mem m sessionId s0 hm)
      have hhas : m.hasSession sessionId = true := by rw [Manager.hasSession, hm]; rfl
      have hmerge : (mergeOptions s0 options).sessionId = sessionId := by
        rw [mergeOptions_sessionId, hsid0]
      by_cases hst : (mergeOptions s0 options).connectionStatus = .connected
      · rw [createSession_eq_connected m sessionId options connectOk s0 hv hm hst]
        refine ⟨mergeOptions s0 options, ?_, ?_, ?_, ?_⟩
        · exact getSession_setSession_self m sessionId (mergeOptions s0 options)
        · exact WF_setSession m sessionId (mergeOptions s0 options) hwf hmerge
        · exact countKey_setSession m sessionId (mergeOptions s0 options) hwf.1
        · rw [hhas]; rfl
      · rw [createSession_eq_reconnect m sessionId options connectOk s0 hv hm hst]
        refine ⟨(mergeOptions s0 options).connect connectOk, ?_, ?_, ?_, ?_⟩
        · exact getSession_setSession_self _ sessionId _
        · exact WF_setSession _ sessionId _
            (WF_setSession m sessionId (mergeOptions s0 options) hwf hmerge)
            (by rw [connect_sessionId, hmerge])
        · exact countKey_setSession _ sessionId ((mergeOptions s0 options).connect connectOk)
            (keysNodup_setSession m sessionId (mergeOptions s0 options) hwf.1)
        · rw [hhas]; rfl
  | none =>
      have hhas : m.hasSession sessionId = false := by rw [Manager.hasSession, hm]; rfl
      rw [createSession_eq_fresh m sessionId options connectOk hv hm]
      refine ⟨(WhatsAppSession.make sessionId options).connect connectOk, ?_, ?_, ?_, ?_⟩
      · exact getSession_setSession_self _ sessionId _
      · exact WF_setSession _ sessionId _
          (WF_setSession m sessionId (WhatsAppSession.make sessionId options) hwf
            (make_sessionId sessionId options))
          (by rw [connect_sessionId, make_sessionId])
      · exact countKey_setSession _ sessionId
          ((WhatsAppSession.make sessionId options).connect connectOk)
          (keysNodup_setSession m sessionId (WhatsAppSession.make sessionId options) hwf.1)
      · rw [hhas]; simp

/-- C6: calling createSession twice for the same valid id never constructs two
handles: the two calls together construct at most one, and exactly one handle
is registered for the id afterwards; the second call either returns a failure
result carrying the info snapshot of the (config-merged) existing handle, when
that handle is already connected, or issues connect on the existing handle and
returns a success result. -/
theorem createSession_twice (m : Manager) (sessionId : String)
    (o1 o2 : SessionOptions) (ok1 ok2 : Bool) (hwf : m.WF)
    (hv : validSessionId sessionId = true) :
    ((createSession (createSession m sessionId o1 ok1).2.1 sessionId o2 ok2).2.1.countKey
        sessionId = 1)
    ∧ (((createSession m sessionId o1 ok1).2.2
        ++ (createSession (createSession m sessionId o1 ok1).2.1 sessionId o2 ok2).2.2).count
          (Event.constructed sessionId) ≤ 1)
    ∧ ∃ s1, (createSession m sessionId o1 ok1).2.1.getSession sessionId = some s1
        ∧ (s1.connectionStatus = .connected →
            (createSession (createSession m sessionId o1 ok1).2.1 sessionId o2 ok2).1
              = { success := false, message := "Session already connected"
                , data := some (mergeOptions s1 o2).getInfo })
        ∧ (s1.connectionStatus ≠ .connected →
            (createSession (createSession m sessionId o1 ok1).2.1 sessionId o2 ok2).1.success
              = true
            ∧ Event.connectIssued sessionId
                ∈ (createSession (createSession m sessionId o1 ok1).2.1 sessionId o2 ok2).2.2) := by
  obtain ⟨s1, hs1, hwf1, hcount1, hconstr1⟩ :=
    createSession_valid_registers m sessionId o1 ok1 hwf hv
  have hstatus : (mergeOptions s1 o2).connectionStatus = s1.connectionStatus :=
    mergeOptions_connectionStatus s1 o2
  by_cases hst : (mergeOptions s1 o2).connectionStatus = .connected
  · rw [createSession_eq_connected _ sessionId o2 ok2 s1 hv hs1 hst]
    refine ⟨?_, ?_, s1, hs1, fun _ => rfl, fun hne => absurd (hstatus ▸ hst) hne⟩
    · exact countKey_setSession _ sessionId (mergeOptions s1 o2) hwf1.1
    · rw [List.count_append, hconstr1]
      cases m.hasSession sessionId <;> simp
  · rw [createSession_eq_reconnect _ sessionId o2 ok2 s1 hv hs1 hst]
    refine ⟨?_, ?_, s1, hs1, fun hc => absurd (hstatus ▸ hc) hst,
      fun _ => ⟨rfl, List.mem_cons_self _ _⟩⟩
    · exact countKey_setSession _ sessionId ((mergeOptions s1 o2).connect ok2)
        (keysNodup_setSession _ sessionId (mergeOptions s1 o2) hwf1.1)
    · rw [List.count_append, hconstr1]
      cases m.hasSession sessionId <;> simp

theorem createSession_twice_witness :
    Manager.WF ([] : Manager)
    ∧ validSessionId "s1" = true
    ∧ (((createSession (createSession [] "s1" {} true).2.1 "s1" {} false).2.1.countKey
          "s1" = 1)
      ∧ (((createSession [] "s1" {} true).2.2
          ++ (createSession (createSession [] "s1" {} true).2.1 "s1" {} false).2.2).count
            (Event.constructed "s1") ≤ 1)
      ∧ ∃ s1, (createSession [] "s1" {} true).2.1.getSession "s1" = some s1
          ∧ (s1.connectionStatus = .connected →
              (createSession (createSession [] "s1" {} true).2.1 "s1" {} false).1
                = { success := false, message := "Session already connected"
                  , data := some (mergeOptions s1 {}).getInfo })
          ∧ (s1.connectionStatus ≠ .connected →
              (createSession (createSession [] "s1" {} true).2.1 "s1" {} false).1.success
                = true
              ∧ Event.connectIssued "s1"
                  ∈ (createSession (createSession [] "s1" {} true).2.1 "s1" {} false).2.2)) :=
  ⟨by decide, by decide, createSession_twice [] "s1" {} {} true false (by decide) (by decide)⟩

/-! ## Helper lemma and claim theorem about media storage -/

theorem lookupObject_upsertObject_self (st : MediaStore) (path : String) (obj : MediaObject) :
    lookupObject (upsertObject st path obj) path = some obj := by
  induction st with
  | nil => simp [upsertObject, lookupObject]
  | cons e rest ih =>
      by_cases h : e.1 = path
      · simp [upsertObject, h, lookupObject]
      · simp [upsertObject, h, lookupObject, ih]

/-- C9: when the upload request succeeds, uploadMedia stores the bytes at
sessionId slash messageId extension, overwriting any object previously at that
path, and requests a signed URL valid for 3600 seconds; when signed-URL
issuance fails after the successful upload, the result is still success with
the stored path and a null URL, and the stored object is kept. -/
theorem uploadMedia_spec (env : StorageEnv) (st : MediaStore)
    (sessionId messageId : String) (buffer : List Nat) (mimeType extension : String)
    (hup : env.uploadFails = false) :
    lookupObject (uploadMedia env st sessionId messageId buffer mimeType extension).2
        (getStoragePath sessionId messageId extension)
      = some { bytes := buffer, contentType := mimeType }
    ∧ (uploadMedia env st sessionId messageId buffer mimeType extension).1.success = true
    ∧ (uploadMedia env st sessionId messageId buffer mimeType extension).1.path
        = some (getStoragePath sessionId messageId extension)
    ∧ (env.signFails = true →
        (uploadMedia env st sessionId messageId buffer mimeType extension).1.url = none)
    ∧ (env.signFails = false →
        (uploadMedia env st sessionId messageId buffer mimeType extension).1.url
          = some (env.signedUrlFor (getStoragePath sessionId messageId extension) 3600)) := by
  cases hs : env.signFails <;>
    simp [uploadMedia, hup, hs, lookupObject_upsertObject_self]

theorem uploadMedia_spec_witness :
    (StorageEnv.mk false true (fun path _ => path)).uploadFails = false
    ∧ (lookupObject (uploadMedia (StorageEnv.mk false true (fun path _ => path))
          [(getStoragePath "sid" "mid" ".jpg", ⟨[9], "image/png"⟩)]
          "sid" "mid" [1, 2] "image/jpeg" ".jpg").2
        (getStoragePath "sid" "mid" ".jpg")
        = some { bytes := [1, 2], contentType := "image/jpeg" }
      ∧ (uploadMedia (StorageEnv.mk false true (fun path _ => path))
          [(getStoragePath "sid" "mid" ".jpg", ⟨[9], "image/png"⟩)]
          "sid" "mid" [1, 2] "image/jpeg" ".jpg").1.success = true
      ∧ (uploadMedia (StorageEnv.mk false true (fun path _ => path))
          [(getStoragePath "sid" "mid" ".jpg", ⟨[9], "image/png"⟩)]
          "sid" "mid" [1, 2] "image/jpeg" ".jpg").1.path
          = some (getStoragePath "sid" "mid" ".jpg")
      ∧ ((StorageEnv.mk false true (fun path _ => path)).signFails = true →
          (uploadMedia (StorageEnv.mk false true (fun path _ => path))
            [(getStoragePath "sid" "mid" ".jpg", ⟨[9], "image/png"⟩)]
            "sid" "mid" [1, 2] "image/jpeg" ".jpg").1.url = none)
      ∧ ((StorageEnv.mk false true (fun path _ => path)).signFails = false →
          (uploadMedia (StorageEnv.mk false true (fun path _ => path))
            [(getStoragePath "sid" "mid" ".jpg", ⟨[9], "image/png"⟩)]
            "sid" "mid" [1, 2] "image/jpeg" ".jpg").1.url
            = some ((StorageEnv.mk false true (fun path _ => path)).signedUrlFor
                (getStoragePath "sid" "mid" ".jpg") 3600))) :=
  ⟨rfl, uploadMedia_spec (StorageEnv.mk false true (fun path _ => path))
    [(getStoragePath "sid" "mid" ".jpg", ⟨[9], "image/png"⟩)]
    "sid" "mid" [1, 2] "image/jpeg" ".jpg" rfl⟩

/-! ## Claim theorem about the client singleton -/

/-- C10: with no cached client and SUPABASE_URL or SUPABASE_SERVICE_KEY unset,
getSupabaseClient throws; once a call succeeds the client is cached, and every
subsequent call returns that identical instance without reading the
environment: the result is the cached client whatever the environment of the
later call. -/
theorem getSupabaseClient_spec (env env2 : ProcessEnv) :
    ((env.supabaseUrl = none ∨ env.supabaseServiceKey = none) →
      getSupabaseClient none env
        = .error "SUPABASE_URL and SUPABASE_SERVICE_KEY must be set in environment variables")
    ∧ (∀ client cache, getSupabaseClient none env = .ok (client, cache) →
        cache = some client
        ∧ getSupabaseClient (some client) env2 = .ok (client, some client)) := by
  constructor
  · intro h
    rcases h with h | h <;> simp [getSupabaseClient, envTruthy, h]
  · intro client cache h
    rw [getSupabaseClient] at h
    split at h
    · cases h
    · injection h with h2
      injection h2 with h3 h4
      subst h3
      subst h4
      exact ⟨rfl, rfl⟩

theorem getSupabaseClient_spec_witness :
    ((ProcessEnv.mk none (some "key")).supabaseUrl = none
      ∨ (ProcessEnv.mk none (some "key")).supabaseServiceKey = none)
    ∧ getSupabaseClient none (ProcessEnv.mk none (some "key"))
        = .error "SUPABASE_URL and SUPABASE_SERVICE_KEY must be set in environment variables"
    ∧ getSupabaseClient none (ProcessEnv.mk (some "u") (some "k"))
        = .ok (⟨"u", "k"⟩, some ⟨"u", "k"⟩)
    ∧ (some (SupabaseClientHandle.mk "u" "k") = some (SupabaseClientHandle.mk "u" "k")
      ∧ getSupabaseClient (some (SupabaseClientHandle.mk "u" "k")) (ProcessEnv.mk none none)
          = .ok (⟨"u", "k"⟩, some ⟨"u", "k"⟩)) :=
  ⟨Or.inl rfl,
   (getSupabaseClient_spec (ProcessEnv.mk none (some "key")) (ProcessEnv.mk none none)).1
     (Or.inl rfl),
   rfl,
   (getSupabaseClient_spec (ProcessEnv.mk (some "u") (some "k")) (ProcessEnv.mk none none)).2
     ⟨"u", "k"⟩ (some ⟨"u", "k"⟩) rfl⟩

end Chatery
